import Mathlib

/-!
Shallow embedding of `src/datature_hub/hub.py` (datature/hub): a client-side
model acquisition and caching layer.  The module-level registry configuration,
the `HubModel` class with its resolution, download/verify/extract population
state machine, cache accessors, and the label-map parser are translated into
pure Lean functions over an explicit filesystem state.

External collaborators (the `requests` HTTP transport, `hashlib.sha256`,
`zipfile` decoding) are modelled as inputs/parameters: a registry response
value, a download response value, a digest function `List Nat → String` and an
archive decoder `List Nat → Option entries`.  Network activity is recorded in
an explicit event trace so that "no network call" properties are statable.
-/

/-- A filesystem path, as a list of components (as produced by
`os.path.join`). -/
abbrev FPath := List String

/-- The filesystem state: a set of directories and a map from file paths to
byte contents (bytes as `Nat`).  Only the operations `hub.py` performs are
modelled. -/
structure FS where
  dirs : List FPath
  files : List (FPath × List Nat)
deriving Repr, DecidableEq

/-- `os.path.exists`: true if the path names an existing directory or file. -/
def FS.existsPath (fs : FS) (p : FPath) : Bool :=
  fs.dirs.any (fun d => d == p) || fs.files.any (fun f => f.1 == p)

/-- `Path(p).mkdir(parents=True, exist_ok=True)`: create the directory and all
its ancestors; existing directories are untouched. -/
def FS.mkdirParents (fs : FS) (p : FPath) : FS :=
  { fs with dirs := p.inits ++ fs.dirs }

/-- `open(p, "wb")` followed by writing `content`: the file at `p` is created
or truncated and ends up holding exactly `content`. -/
def FS.writeFile (fs : FS) (p : FPath) (content : List Nat) : FS :=
  { fs with files := (p, content) :: fs.files.filter (fun f => !(f.1 == p)) }

/-- Read a file's bytes, `none` when no file exists at the path. -/
def FS.readFile (fs : FS) (p : FPath) : Option (List Nat) :=
  (fs.files.find? (fun f => f.1 == p)).map (·.2)

/-- `os.remove(p)`: delete the file at `p` (the caller only invokes it on an
existing file). -/
def FS.removeFile (fs : FS) (p : FPath) : FS :=
  { fs with files := fs.files.filter (fun f => !(f.1 == p)) }

/-- `shutil.rmtree(p, ignore_errors=True)`: remove the directory `p` and
everything beneath it. -/
def FS.rmtree (fs : FS) (p : FPath) : FS :=
  { dirs := fs.dirs.filter (fun d => !(List.isPrefixOf p d)),
    files := fs.files.filter (fun f => !(List.isPrefixOf p f.1)) }

/-- A network side effect performed by the library. -/
inductive NetEvent
  /-- `requests.post(_config["hub_endpoint"], ...)` in `_get_model_url_and_hash`. -/
  | registryCall (endpoint : String)
  /-- `requests.get(url, stream=True)` in `_save_and_verify_model`. -/
  | downloadCall (url : String)
deriving Repr, DecidableEq

/-- The errors `hub.py` raises on the paths modelled here. -/
inductive HubError
  /-- `response.raise_for_status()` on a non-2xx HTTP status. -/
  | httpStatusError
  /-- `RuntimeError("Model is not ready to download.")`. -/
  | modelNotReady
  /-- `RuntimeError` for a checksum mismatch, carrying the computed and the
  expected digest. -/
  | checksumMismatch (computed : String) (expected : String)
  /-- `zipfile.BadZipFile`: the archive cannot be decoded. -/
  | badZipFile
  /-- `ValueError(f"Invalid model type {model_type}.")`. -/
  | invalidModelType (modelTypeRepr : String)
  /-- `FileNotFoundError` with its message. -/
  | fileNotFound (msg : String)
deriving Repr, DecidableEq

/-- The JSON body of the registry's response together with the HTTP outcome
of `requests.post` (`httpOk` = the status code is non-error). -/
structure RegistryResponse where
  httpOk : Bool
  status : String
  projectSecretNeeded : Bool
  signedUrl : String
  hash : String
deriving Repr, DecidableEq

/-- The named tuple `_ModelURLWithHash`. -/
structure ModelURLWithHash where
  url : String
  checksum : String
deriving Repr, DecidableEq

/-- The module-level `_config` dictionary. -/
structure Config where
  hubEndpoint : String
deriving Repr, DecidableEq

/-- The module's initial `_config` value. -/
def defaultConfig : Config := { hubEndpoint := "https://api.datature.io/hub" }

/-- `_set_hub_endpoint`: replace the process-wide registry endpoint. -/
def setHubEndpoint (_c : Config) (endpoint : String) : Config :=
  { hubEndpoint := endpoint }

/-- The registry as a pure function: what response `requests.post` to a given
endpoint with a given model key and optional secret yields. -/
abbrev Registry := String → String → Option String → RegistryResponse

/-- `HubModel._get_model_url_and_hash`, applied to the registry's response:
`raise_for_status` first, then the `status != "ready"` check, then the
url/hash extraction.  (The unnecessary-secret warning is a stderr side effect
that does not affect the returned value.) -/
def getModelUrlAndHash (resp : RegistryResponse) : Except HubError ModelURLWithHash :=
  if !resp.httpOk then .error .httpStatusError
  else if resp.status ≠ "ready" then .error .modelNotReady
  else .ok { url := resp.signedUrl, checksum := resp.hash }

/-- `get_default_hub_dir()`: `~/.dataturehub`. -/
def getDefaultHubDir (home : FPath) : FPath := home ++ [".dataturehub"]

/-- The state of a constructed `HubModel` object (the lazily populated
`_height_width_cache` is not needed by any property here). -/
structure HubModel where
  modelKey : String
  projectSecret : Option String
  modelUrlAndHash : ModelURLWithHash
  modelDir : FPath
deriving Repr, DecidableEq

/-- `HubModel.__init__`: resolve the registry metadata synchronously (this is
the only network call at construction) and derive `model_dir`. -/
def hubInit (registry : Registry) (config : Config) (modelKey : String)
    (projectSecret : Option String) (home : FPath) (hubDir : Option FPath) :
    Except HubError HubModel × List NetEvent :=
  let resp := registry config.hubEndpoint modelKey projectSecret
  match getModelUrlAndHash resp with
  | .error e => (.error e, [.registryCall config.hubEndpoint])
  | .ok mh =>
      (.ok { modelKey := modelKey, projectSecret := projectSecret,
             modelUrlAndHash := mh,
             modelDir := (hubDir.getD (getDefaultHubDir home)) ++ [modelKey] },
       [.registryCall config.hubEndpoint])

/-- The HTTP outcome of `requests.get(url, stream=True)`: whether the status
is non-error, the `content-length` header when present, and the body bytes. -/
structure DownloadResponse where
  httpOk : Bool
  contentLength : Option Nat
  content : List Nat
deriving Repr, DecidableEq

/-- `_get_sha256_hash_of_file`: read the file and digest its content (the
chunked reads feed the hash the whole content in order, so the digest is the
digest of the file's bytes).  `sha` stands for `hashlib.sha256(...)
.hexdigest()`. -/
def getSha256HashOfFile (sha : List Nat → String) (fs : FS) (filepath : FPath) : String :=
  match fs.readFile filepath with
  | some content => sha content
  | none => ""

/-- `HubModel._save_and_verify_model`: open the destination for writing,
issue the GET, `raise_for_status`, then: with no `content-length` header
write `response.content` and return; with a known length write the chunks
(whose concatenation is the body) and compare the file's SHA-256 digest with
the checksum resolved at construction. -/
def saveAndVerifyModel (sha : List Nat → String) (self : HubModel)
    (destinationPath : FPath) (resp : DownloadResponse) (fs : FS) :
    Except HubError Unit × FS × List NetEvent :=
  let fs1 := fs.writeFile destinationPath []
  let ev := [NetEvent.downloadCall self.modelUrlAndHash.url]
  if !resp.httpOk then (.error .httpStatusError, fs1, ev)
  else
    match resp.contentLength with
    | none => (.ok (), fs1.writeFile destinationPath resp.content, ev)
    | some _ =>
        let fs2 := fs1.writeFile destinationPath resp.content
        let fileChecksum := getSha256HashOfFile sha fs2 destinationPath
        if fileChecksum ≠ self.modelUrlAndHash.checksum then
          (.error (.checksumMismatch fileChecksum self.modelUrlAndHash.checksum), fs2, ev)
        else (.ok (), fs2, ev)

/-- `ZipFile.extractall(target)`: write every archive entry beneath the
target directory. -/
def extractAll (fs : FS) (targetDir : FPath) (entries : List (FPath × List Nat)) : FS :=
  entries.foldl (fun acc e => acc.writeFile (targetDir ++ e.1) e.2) fs

/-- The `model_type` argument as a dynamically typed Python value: either the
enum member `ModelType.TF` or any other object (carried by its repr). -/
inductive ModelTypeArg
  | tf
  | other (modelTypeRepr : String)
deriving Repr, DecidableEq

/-- The body of the `try` block of `HubModel.download_model`; an error carries
the filesystem state at the moment it is raised.  `unzip` stands for
`zipfile` decoding: `none` means `BadZipFile`. -/
def downloadModelBody (sha : List Nat → String)
    (unzip : List Nat → Option (List (FPath × List Nat)))
    (self : HubModel) (modelType : ModelTypeArg)
    (resp : DownloadResponse) (fs0 : FS) :
    Except (HubError × FS) FS × List NetEvent :=
  match modelType with
  | .tf =>
      let modelZipPath := self.modelDir ++ ["model.zip"]
      match saveAndVerifyModel sha self modelZipPath resp fs0 with
      | (.error e, fs1, ev) => (.error (e, fs1), ev)
      | (.ok _, fs1, ev) =>
          match fs1.readFile modelZipPath with
          | none => (.error (.badZipFile, fs1), ev)
          | some archive =>
              match unzip archive with
              | none => (.error (.badZipFile, fs1), ev)
              | some entries =>
                  let fs2 := extractAll fs1 self.modelDir entries
                  (.ok (fs2.removeFile modelZipPath), ev)
  | .other r => (.error (.invalidModelType r, fs0), [])

/-- `HubModel.download_model`: make the cache directory (with parents), run
the try block, and on any exception remove the whole `model_folder` subtree
before re-raising; on success return `model_folder`. -/
def downloadModel (sha : List Nat → String)
    (unzip : List Nat → Option (List (FPath × List Nat)))
    (self : HubModel) (modelType : ModelTypeArg)
    (resp : DownloadResponse) (fs : FS) :
    Except HubError FPath × FS × List NetEvent :=
  let modelFolder := self.modelDir
  let fs0 := fs.mkdirParents modelFolder
  match downloadModelBody sha unzip self modelType resp fs0 with
  | (.ok fsOk, ev) => (.ok modelFolder, fsOk, ev)
  | (.error (e, fsErr), ev) => (.error e, fsErr.rmtree modelFolder, ev)

/-- `HubModel.load_tf_model`: download only when forced or when the cache
directory is absent, then hand `model_folder/saved_model` to the TensorFlow
loader; the returned path is the one given to `tf.saved_model.load`. -/
def loadTfModel (sha : List Nat → String)
    (unzip : List Nat → Option (List (FPath × List Nat)))
    (self : HubModel) (forceDownload : Bool)
    (resp : DownloadResponse) (fs : FS) :
    Except HubError FPath × FS × List NetEvent :=
  let modelFolder := self.modelDir
  if forceDownload || !(fs.existsPath modelFolder) then
    match downloadModel sha unzip self .tf resp fs with
    | (.error e, fs', ev) => (.error e, fs', ev)
    | (.ok _, fs', ev) => (.ok (modelFolder ++ ["saved_model"]), fs', ev)
  else
    (.ok (modelFolder ++ ["saved_model"]), fs, [])

/-- The first `FileNotFoundError` message of `get_pipeline_config_dir`. -/
def missingDirMsg (modelKey : String) : String :=
  "The directory for model key " ++ modelKey ++ " does not exist."

/-- The second `FileNotFoundError` message of `get_pipeline_config_dir`. -/
def missingConfigMsg : String :=
  "pipeline.config not found in the model key directory. " ++
  "Try re-downloading the model by " ++
  "calling load_tf_model with force_download parameter = True."

/-- `HubModel.get_pipeline_config_dir`. -/
def getPipelineConfigDir (self : HubModel) (fs : FS) : Except HubError FPath :=
  let modelFolder := self.modelDir
  if !(fs.existsPath modelFolder) then
    .error (.fileNotFound (missingDirMsg self.modelKey))
  else
    let pipelinePath := modelFolder ++ ["pipeline.config"]
    if !(fs.existsPath pipelinePath) then
      .error (.fileNotFound missingConfigMsg)
    else .ok pipelinePath

/-- The apostrophe character stripped by `.strip("'")`. -/
def quoteChar : Char := Char.ofNat 39

/-- Python `str.split(sep)` on a one-character separator, over the string's
characters: split at every occurrence of the separator. -/
def splitOnChar (sep : Char) : List Char → List (List Char)
  | [] => [[]]
  | c :: cs =>
      match splitOnChar sep cs with
      | [] => [[]]
      | w :: ws => if c == sep then [] :: w :: ws else (c :: w) :: ws

/-- The whitespace characters `str.strip()` removes. -/
def isPySpace (c : Char) : Bool :=
  c == ' ' || c == Char.ofNat 9 || c == Char.ofNat 10 || c == Char.ofNat 13 ||
  c == Char.ofNat 11 || c == Char.ofNat 12

/-- Python `str.strip(chars)`: drop the given characters from both ends. -/
def trimChars (p : Char → Bool) (s : List Char) : List Char :=
  ((s.dropWhile p).reverse.dropWhile p).reverse

/-- Parse a nonempty all-digit character list as a natural number. -/
def digitsToNat : List Char → Option Nat
  | [] => none
  | cs =>
      cs.foldl (fun acc c =>
        match acc with
        | none => none
        | some n => if c.isDigit then some (n * 10 + (c.toNat - 48)) else none)
        (some 0)

/-- Python `int(s)`: surrounding whitespace is ignored, an optional sign and
decimal digits are parsed; `none` models the `ValueError`. -/
def pyInt (s : String) : Option Int :=
  match trimChars isPySpace s.data with
  | [] => none
  | c :: cs =>
      if c == '-' then (digitsToNat cs).map (fun n => -(n : Int))
      else if c == '+' then (digitsToNat cs).map (fun n => (n : Int))
      else (digitsToNat (c :: cs)).map (fun n => (n : Int))

/-- Python's substring test `pat in s`. -/
def strContains (s pat : String) : Bool :=
  (List.range (s.data.length + 1)).any
    (fun i => List.isPrefixOf pat.data (s.data.drop i))

/-- `line.split(":")[-1]`. -/
def lastColonField (line : String) : String :=
  String.mk ((splitOnChar ':' line.data).getLastD [])

/-- `next(label_file).split(":")[-1].strip().strip("'")`. -/
def nameField (line : String) : String :=
  String.mk (trimChars (fun c => c == quoteChar)
    (trimChars isPySpace ((splitOnChar ':' line.data).getLastD [])))

/-- One parsed label-map record: the dictionary value
`{"id": label_index, "name": label_name}`. -/
structure LabelEntry where
  id : Int
  name : String
deriving Repr, DecidableEq

/-- Insertion into a Python dict (insertion-ordered): replace the value in
place when the key is present, else append. -/
def dictInsert (m : List (Int × LabelEntry)) (k : Int) (v : LabelEntry) :
    List (Int × LabelEntry) :=
  if m.any (fun e => e.1 == k) then
    m.map (fun e => if e.1 == k then (k, v) else e)
  else m ++ [(k, v)]

/-- The loop of `_load_label_map_from_file` over the file's lines: a line
containing `"id"` has its last colon field parsed as an integer and consumes
the following line as the name line; `none` models the exceptions (a missing
next line, a non-integer id field). -/
def loadLabelMapGo : List String → List (Int × LabelEntry) →
    Option (List (Int × LabelEntry))
  | [], acc => some acc
  | line :: rest, acc =>
      if strContains line "id" then
        match rest with
        | [] => none
        | nameLine :: rest2 =>
            match pyInt (lastColonField line) with
            | none => none
            | some labelIndex =>
                loadLabelMapGo rest2
                  (dictInsert acc labelIndex
                    { id := labelIndex, name := nameField nameLine })
      else loadLabelMapGo rest acc

/-- `_load_label_map_from_file`, on the file's lines. -/
def loadLabelMapFromFile (lines : List String) :
    Option (List (Int × LabelEntry)) :=
  loadLabelMapGo lines []

/-- The label-map file shape the spec describes: filler lines that do not
contain `"id"`, interleaved with records given by an id line containing a
colon-separated integer immediately followed by a name line whose
colon-separated, whitespace- and quote-stripped field is the record's name. -/
inductive LabelFileWF : List String → List LabelEntry → Prop
  | nil : LabelFileWF [] []
  | filler {ls rs} (l : String) (h : strContains l "id" = false)
      (tail : LabelFileWF ls rs) : LabelFileWF (l :: ls) rs
  | record {ls rs} (idLine nameLine : String) (r : LabelEntry)
      (hid : strContains idLine "id" = true)
      (hparse : pyInt (lastColonField idLine) = some r.id)
      (hname : nameField nameLine = r.name)
      (tail : LabelFileWF ls rs) :
      LabelFileWF (idLine :: nameLine :: ls) (r :: rs)

/-! ### Filesystem lemmas -/

theorem FS.dirs_writeFile (fs : FS) (p : FPath) (c : List Nat) :
    (fs.writeFile p c).dirs = fs.dirs := rfl

theorem FS.dirs_removeFile (fs : FS) (p : FPath) :
    (fs.removeFile p).dirs = fs.dirs := rfl

theorem FS.readFile_writeFile_self (fs : FS) (p : FPath) (c : List Nat) :
    (fs.writeFile p c).readFile p = some c := by
  simp [FS.writeFile, FS.readFile, List.find?_cons]

theorem FS.existsPath_writeFile_of (fs : FS) (p : FPath) (c : List Nat)
    (q : FPath) (h : fs.existsPath q = true) :
    (fs.writeFile p c).existsPath q = true := by
  simp only [FS.existsPath, FS.writeFile, Bool.or_eq_true, List.any_eq_true] at h ⊢
  rcases h with h | ⟨f, hf, hfq⟩
  · exact Or.inl h
  · by_cases hp : f.1 = p
    · refine Or.inr ⟨(p, c), List.mem_cons_self _ _, ?_⟩
      simp only [beq_iff_eq] at hfq ⊢
      simpa [hp] using hfq
    · refine Or.inr ⟨f, List.mem_cons_of_mem _ ?_, hfq⟩
      exact List.mem_filter.mpr ⟨hf, by simpa using hp⟩

theorem FS.existsPath_writeFile_self (fs : FS) (p : FPath) (c : List Nat) :
    (fs.writeFile p c).existsPath p = true := by
  simp [FS.existsPath, FS.writeFile]

theorem FS.existsPath_removeFile_of (fs : FS) (p q : FPath)
    (h : fs.existsPath q = true) (hne : q ≠ p) :
    (fs.removeFile p).existsPath q = true := by
  simp only [FS.existsPath, FS.removeFile, Bool.or_eq_true, List.any_eq_true] at h ⊢
  rcases h with h | ⟨f, hf, hfq⟩
  · exact Or.inl h
  · refine Or.inr ⟨f, List.mem_filter.mpr ⟨hf, ?_⟩, hfq⟩
    simp only [beq_iff_eq] at hfq
    simp [hfq, hne]

theorem FS.existsPath_removeFile_self (fs : FS) (p : FPath)
    (hd : fs.dirs.any (fun d => d == p) = false) :
    (fs.removeFile p).existsPath p = false := by
  simp only [FS.existsPath, FS.removeFile, Bool.or_eq_false_iff]
  refine ⟨hd, ?_⟩
  rw [List.any_eq_false]
  intro f hf
  rcases List.mem_filter.mp hf with ⟨_, hnp⟩
  simpa using hnp

theorem FS.existsPath_rmtree_under (fs : FS) {q p : FPath} (h : q <+: p) :
    (fs.rmtree q).existsPath p = false := by
  simp only [FS.rmtree, FS.existsPath, Bool.or_eq_false_iff]
  constructor
  · rw [List.any_eq_false]
    intro d hd
    rcases List.mem_filter.mp hd with ⟨_, hnp⟩
    simp only [beq_iff_eq, Bool.not_eq_true]
    intro hdp
    rw [hdp, Bool.not_eq_true', ← Bool.not_eq_true, List.isPrefixOf_iff_prefix] at hnp
    exact hnp h
  · rw [List.any_eq_false]
    intro f hf
    rcases List.mem_filter.mp hf with ⟨_, hnp⟩
    simp only [beq_iff_eq, Bool.not_eq_true]
    intro hdp
    rw [hdp, Bool.not_eq_true', ← Bool.not_eq_true, List.isPrefixOf_iff_prefix] at hnp
    exact hnp h

theorem extractAll_dirs (entries : List (FPath × List Nat)) (fs : FS) (d : FPath) :
    (extractAll fs d entries).dirs = fs.dirs := by
  induction entries generalizing fs with
  | nil => rfl
  | cons e es ih => simpa [extractAll] using ih (fs.writeFile (d ++ e.1) e.2)

theorem extractAll_existsPath_of (entries : List (FPath × List Nat)) (fs : FS)
    (d q : FPath) (h : fs.existsPath q = true) :
    (extractAll fs d entries).existsPath q = true := by
  induction entries generalizing fs with
  | nil => exact h
  | cons e es ih =>
      exact ih (fs.writeFile (d ++ e.1) e.2)
        (fs.existsPath_writeFile_of (d ++ e.1) e.2 q h)

theorem extractAll_existsPath_mem (entries : List (FPath × List Nat)) (fs : FS)
    (d : FPath) {e : FPath × List Nat} (he : e ∈ entries) :
    (extractAll fs d entries).existsPath (d ++ e.1) = true := by
  induction entries generalizing fs with
  | nil => cases he
  | cons e0 es ih =>
      rcases List.mem_cons.mp he with rfl | hmem
      · exact extractAll_existsPath_of es _ d (d ++ e.1)
          (fs.existsPath_writeFile_self (d ++ e.1) e.2)
      · exact ih (fs.writeFile (d ++ e0.1) e0.2) hmem

/-! ### Characterizations of the population pipeline -/

theorem saveAndVerifyModel_ok_fs {sha : List Nat → String} {self : HubModel}
    {dest : FPath} {resp : DownloadResponse} {fs fs' : FS} {u : Unit}
    {ev : List NetEvent}
    (h : saveAndVerifyModel sha self dest resp fs = (.ok u, fs', ev)) :
    fs' = (fs.writeFile dest []).writeFile dest resp.content ∧
    ev = [NetEvent.downloadCall self.modelUrlAndHash.url] := by
  unfold saveAndVerifyModel at h
  dsimp only at h
  split at h
  · simp at h
  · split at h
    · simp only [Prod.mk.injEq] at h
      exact ⟨h.2.1.symm, h.2.2.symm⟩
    · split at h
      · simp at h
      · simp only [Prod.mk.injEq] at h
        exact ⟨h.2.1.symm, h.2.2.symm⟩

theorem downloadModel_error_fs {sha : List Nat → String}
    {unzip : List Nat → Option (List (FPath × List Nat))}
    {self : HubModel} {mt : ModelTypeArg} {resp : DownloadResponse}
    {fs : FS} {e : HubError} {fs' : FS} {ev : List NetEvent}
    (h : downloadModel sha unzip self mt resp fs = (.error e, fs', ev)) :
    ∃ fsErr, fs' = FS.rmtree fsErr self.modelDir := by
  unfold downloadModel at h
  dsimp only at h
  rcases hb : downloadModelBody sha unzip self mt resp (fs.mkdirParents self.modelDir)
    with ⟨res, ev1⟩
  rw [hb] at h
  cases res with
  | ok fsOk => simp at h
  | error pe =>
      rcases pe with ⟨e0, fsErr⟩
      simp only [Prod.mk.injEq] at h
      exact ⟨fsErr, h.2.1.symm⟩

theorem downloadModel_tf_ok_char {sha : List Nat → String}
    {unzip : List Nat → Option (List (FPath × List Nat))}
    {self : HubModel} {resp : DownloadResponse}
    {fs : FS} {p : FPath} {fs' : FS} {ev : List NetEvent}
    (h : downloadModel sha unzip self .tf resp fs = (.ok p, fs', ev)) :
    ∃ entries, unzip resp.content = some entries ∧ p = self.modelDir ∧
      fs' = (extractAll (((fs.mkdirParents self.modelDir).writeFile
                (self.modelDir ++ ["model.zip"]) []).writeFile
                (self.modelDir ++ ["model.zip"]) resp.content)
              self.modelDir entries).removeFile
            (self.modelDir ++ ["model.zip"]) := by
  unfold downloadModel downloadModelBody at h
  dsimp only at h
  rcases hsv : saveAndVerifyModel sha self (self.modelDir ++ ["model.zip"]) resp
      (fs.mkdirParents self.modelDir) with ⟨res, fs1, ev1⟩
  rw [hsv] at h
  cases res with
  | error e => simp at h
  | ok u =>
      obtain ⟨hfs1, hev1⟩ := saveAndVerifyModel_ok_fs hsv
      rw [hfs1] at h
      dsimp only at h
      rw [FS.readFile_writeFile_self] at h
      dsimp only at h
      rcases hu : unzip resp.content with _ | entries
      · rw [hu] at h; simp at h
      · rw [hu] at h
        dsimp only at h
        simp only [Prod.mk.injEq, Except.ok.injEq] at h
        exact ⟨entries, rfl, h.1.symm, h.2.1.symm⟩

/-! ### Label-map parser lemmas -/

theorem loadLabelMapGo_wf {lines : List String} {rs : List LabelEntry}
    (h : LabelFileWF lines rs) :
    ∀ acc, loadLabelMapGo lines acc =
      some (rs.foldl (fun a r => dictInsert a r.id r) acc) := by
  induction h with
  | nil => intro acc; rfl
  | filler l hl tail ih =>
      intro acc
      rw [loadLabelMapGo.eq_def]
      dsimp only
      rw [hl]
      simpa using ih acc
  | record idLine nameLine r hid hparse hname tail ih =>
      intro acc
      rw [loadLabelMapGo.eq_def]
      dsimp only
      rw [hid, if_pos rfl, hparse]
      dsimp only
      rw [hname, List.foldl_cons]
      have hr : ({ id := r.id, name := r.name } : LabelEntry) = r := rfl
      rw [hr]
      exact ih (dictInsert acc r.id r)

theorem foldl_dictInsert_fresh :
    ∀ (rs : List LabelEntry) (acc : List (Int × LabelEntry)),
    (∀ r ∈ rs, ∀ e ∈ acc, e.1 ≠ r.id) → (rs.map LabelEntry.id).Nodup →
    rs.foldl (fun a r => dictInsert a r.id r) acc =
      acc ++ rs.map (fun r => (r.id, r))
  | [], acc, _, _ => by simp
  | r :: rs, acc, hfresh, hnd => by
      rw [List.foldl_cons]
      have hins : dictInsert acc r.id r = acc ++ [(r.id, r)] := by
        rw [dictInsert]
        have : acc.any (fun e => e.1 == r.id) = false := by
          rw [List.any_eq_false]
          intro e he
          simpa using hfresh r (List.mem_cons_self _ _) e he
        rw [this]
        simp
      rw [hins]
      rw [List.map_cons, List.nodup_cons] at hnd
      have hfresh2 : ∀ x ∈ rs, ∀ e ∈ acc ++ [(r.id, r)], e.1 ≠ x.id := by
        intro x hx e he
        rcases List.mem_append.mp he with he | he
        · exact hfresh x (List.mem_cons_of_mem _ hx) e he
        · rcases List.mem_singleton.mp he with rfl
          dsimp only
          intro hcontra
          exact hnd.1 (by rw [hcontra]; exact List.mem_map_of_mem LabelEntry.id hx)
      rw [foldl_dictInsert_fresh rs (acc ++ [(r.id, r)]) hfresh2 hnd.2]
      simp

/-! ### Further helper lemmas -/

theorem getModelUrlAndHash_ok {resp : RegistryResponse} {mh : ModelURLWithHash}
    (h : getModelUrlAndHash resp = .ok mh) :
    mh = { url := resp.signedUrl, checksum := resp.hash } := by
  unfold getModelUrlAndHash at h
  split at h
  · simp at h
  · split at h
    · simp at h
    · exact (Except.ok.inj h).symm

theorem saveAndVerifyModel_events (sha : List Nat → String) (self : HubModel)
    (dest : FPath) (resp : DownloadResponse) (fs : FS) :
    (saveAndVerifyModel sha self dest resp fs).2.2
      = [NetEvent.downloadCall self.modelUrlAndHash.url] := by
  unfold saveAndVerifyModel
  dsimp only
  split
  · rfl
  · split
    · rfl
    · split <;> rfl

theorem downloadModel_tf_events (sha : List Nat → String)
    (unzip : List Nat → Option (List (FPath × List Nat)))
    (self : HubModel) (resp : DownloadResponse) (fs : FS) :
    (downloadModel sha unzip self .tf resp fs).2.2
      = [NetEvent.downloadCall self.modelUrlAndHash.url] := by
  unfold downloadModel downloadModelBody
  dsimp only
  have hev := saveAndVerifyModel_events sha self (self.modelDir ++ ["model.zip"])
    resp (fs.mkdirParents self.modelDir)
  rcases hsv : saveAndVerifyModel sha self (self.modelDir ++ ["model.zip"]) resp
      (fs.mkdirParents self.modelDir) with ⟨res, fs1, ev1⟩
  rw [hsv] at hev
  dsimp only at hev
  cases res with
  | error e => dsimp only; exact hev
  | ok u =>
      dsimp only
      cases fs1.readFile (self.modelDir ++ ["model.zip"]) with
      | none => dsimp only; exact hev
      | some archive =>
          dsimp only
          cases unzip archive with
          | none => dsimp only; exact hev
          | some entries => dsimp only; exact hev

theorem downloadModel_error_rollback {sha : List Nat → String}
    {unzip : List Nat → Option (List (FPath × List Nat))}
    {self : HubModel} {mt : ModelTypeArg} {resp : DownloadResponse}
    {fs : FS} {e : HubError}
    (h : (downloadModel sha unzip self mt resp fs).1 = .error e) :
    ∀ p, self.modelDir <+: p →
      ((downloadModel sha unzip self mt resp fs).2.1).existsPath p = false := by
  intro p hp
  rcases hdm : downloadModel sha unzip self mt resp fs with ⟨r, fs', ev⟩
  rw [hdm] at h
  dsimp only at h ⊢
  subst h
  obtain ⟨fsErr, hfe⟩ := downloadModel_error_fs hdm
  rw [hfe]
  exact FS.existsPath_rmtree_under fsErr hp

theorem mem_inits_ne_append_singleton (mdir : FPath) (x : String) :
    ∀ q ∈ mdir.inits, q ≠ mdir ++ [x] := by
  intro q hq
  rw [List.mem_inits] at hq
  intro hcontra
  have h1 := hq.length_le
  rw [hcontra] at h1
  simp at h1

/-! ### Concrete fixtures for the closed theorems -/

/-- A deterministic stand-in for the SHA-256 hex digest in concrete runs:
the body `[1, 2]` digests to "h2", everything else to "hX". -/
def shaStub : List Nat → String := fun bs => if bs = [1, 2] then "h2" else "hX"

/-- A stand-in archive decoder: the two-byte body `[1, 2]` decodes to the
three cache entries, everything else is corrupt. -/
def unzipStub : List Nat → Option (List (FPath × List Nat)) := fun bs =>
  if bs = [1, 2] then
    some [(["saved_model", "weights"], [9]), (["label_map.pbtxt"], [10]),
          (["pipeline.config"], [11])]
  else none

/-- The empty filesystem. -/
def emptyFS : FS := { dirs := [], files := [] }

/-- A handle whose expected checksum matches `shaStub [1, 2] = "h2"`. -/
def sampleHub : HubModel :=
  { modelKey := "mk", projectSecret := none,
    modelUrlAndHash := { url := "https://signed.example/mk", checksum := "h2" },
    modelDir := ["home", ".dataturehub", "mk"] }

/-- A handle whose expected checksum matches no stub digest. -/
def sampleHubBad : HubModel :=
  { sampleHub with
    modelUrlAndHash := { url := "https://signed.example/mk",
                         checksum := "deadbeef" } }

/-- A filesystem with `sampleHub`'s cache already populated. -/
def populatedFS : FS :=
  { dirs := [["home"], ["home", ".dataturehub"], ["home", ".dataturehub", "mk"]],
    files := [(["home", ".dataturehub", "mk", "pipeline.config"], [11])] }

/-- A registry that answers "ready" on endpoint "E1" and "pending" on any
other endpoint. -/
def registryStub : Registry := fun endpoint key _secret =>
  if endpoint = "E1" ∧ key = "mk" then
    { httpOk := true, status := "ready", projectSecretNeeded := false,
      signedUrl := "https://signed.example/mk", hash := "h2" }
  else
    { httpOk := true, status := "pending", projectSecretNeeded := false,
      signedUrl := "", hash := "" }

/-! ### The claims -/

/-- C1: the spec requires every population run by `download_model` to verify
the archive's SHA-256 digest against the resolved expected checksum and to
fail with the integrity (checksum-mismatch) error before extraction whenever
they differ, including for a response with no content-length header.  The
code violates this: with no content-length header, `_save_and_verify_model`
returns immediately after writing the body and the digest check is skipped,
so a population whose digest ("h2") differs from the expected checksum
("deadbeef") still extracts and succeeds; the very same body is rejected
with the checksum-mismatch error when a content-length header is present. -/
theorem claim1_no_content_length_skips_verification :
    shaStub [1, 2] ≠ sampleHubBad.modelUrlAndHash.checksum ∧
    (downloadModel shaStub unzipStub sampleHubBad .tf
        { httpOk := true, contentLength := none, content := [1, 2] } emptyFS).1
      = .ok sampleHubBad.modelDir ∧
    (downloadModel shaStub unzipStub sampleHubBad .tf
        { httpOk := true, contentLength := some 2, content := [1, 2] } emptyFS).1
      = .error (.checksumMismatch (shaStub [1, 2])
          sampleHubBad.modelUrlAndHash.checksum) :=
  ⟨by decide, rfl, rfl⟩

/-- C2: whenever `download_model` fails (transport, integrity, extraction or
invalid-type error), the entire `model_dir` subtree — every path having
`model_dir` as a prefix, in particular `model_dir` itself — is removed from
the resulting filesystem state before the original error value is returned
unchanged to the caller. -/
theorem claim2_rollback_on_failure {sha : List Nat → String}
    {unzip : List Nat → Option (List (FPath × List Nat))}
    {self : HubModel} {mt : ModelTypeArg} {resp : DownloadResponse}
    {fs : FS} {e : HubError}
    (h : (downloadModel sha unzip self mt resp fs).1 = .error e) :
    ∀ p, self.modelDir <+: p →
      ((downloadModel sha unzip self mt resp fs).2.1).existsPath p = false :=
  downloadModel_error_rollback h

/-- Witness for C2: a concrete checksum-mismatch run, after which the cache
directory no longer exists. -/
theorem claim2_rollback_on_failure_witness :
    ((downloadModel shaStub unzipStub sampleHubBad .tf
        { httpOk := true, contentLength := some 2, content := [1, 2] }
        emptyFS).2.1).existsPath sampleHubBad.modelDir = false :=
  @claim2_rollback_on_failure shaStub unzipStub sampleHubBad .tf
    { httpOk := true, contentLength := some 2, content := [1, 2] } emptyFS
    (.checksumMismatch "h2" "deadbeef") rfl
    sampleHubBad.modelDir (List.prefix_refl _)

/-- C3: with the cache directory already present, `load_tf_model` with
`force_download = False` short-circuits: it performs zero network calls,
leaves the filesystem unchanged and hands the existing directory's
`saved_model` subdirectory to the loader; calling it a second time on the
resulting state again performs zero network calls and resolves to the same
path. -/
theorem claim3_short_circuit_idempotent {sha : List Nat → String}
    {unzip : List Nat → Option (List (FPath × List Nat))}
    {self : HubModel} {resp : DownloadResponse} {fs : FS}
    (h : fs.existsPath self.modelDir = true) :
    loadTfModel sha unzip self false resp fs
      = (.ok (self.modelDir ++ ["saved_model"]), fs, []) ∧
    loadTfModel sha unzip self false resp
        (loadTfModel sha unzip self false resp fs).2.1
      = (.ok (self.modelDir ++ ["saved_model"]), fs, []) := by
  have h1 : loadTfModel sha unzip self false resp fs
      = (.ok (self.modelDir ++ ["saved_model"]), fs, []) := by
    simp [loadTfModel, h]
  exact ⟨h1, by rw [h1]; exact h1⟩

/-- Witness for C3 on a concrete populated filesystem. -/
theorem claim3_short_circuit_idempotent_witness :
    loadTfModel shaStub unzipStub sampleHub false
        { httpOk := true, contentLength := some 2, content := [1, 2] }
        populatedFS
      = (.ok (sampleHub.modelDir ++ ["saved_model"]), populatedFS, []) :=
  (claim3_short_circuit_idempotent (by decide)).1

/-- C4: handle construction (`_get_model_url_and_hash`) raises the not-ready
error whenever the registry's JSON status is anything other than "ready", and
a non-2xx HTTP status raises the transport error, which is checked before the
status field is inspected; in both cases construction fails having performed
only the registry call and no download call. -/
theorem claim4_not_ready_before_download (registry : Registry) (c : Config)
    (k : String) (s : Option String) (home : FPath) (hd : Option FPath) :
    ((registry c.hubEndpoint k s).httpOk = true →
      (registry c.hubEndpoint k s).status ≠ "ready" →
      hubInit registry c k s home hd
        = (.error .modelNotReady, [.registryCall c.hubEndpoint])) ∧
    ((registry c.hubEndpoint k s).httpOk = false →
      hubInit registry c k s home hd
        = (.error .httpStatusError, [.registryCall c.hubEndpoint])) ∧
    ∀ u, NetEvent.downloadCall u ∉ (hubInit registry c k s home hd).2 := by
  refine ⟨?_, ?_, ?_⟩
  · intro hok hst
    have hg : getModelUrlAndHash (registry c.hubEndpoint k s)
        = .error .modelNotReady := by
      unfold getModelUrlAndHash
      rw [hok]
      simp [hst]
    unfold hubInit
    dsimp only
    rw [hg]
  · intro hbad
    have hg : getModelUrlAndHash (registry c.hubEndpoint k s)
        = .error .httpStatusError := by
      unfold getModelUrlAndHash
      rw [hbad]
      simp
    unfold hubInit
    dsimp only
    rw [hg]
  · intro u
    unfold hubInit
    dsimp only
    cases getModelUrlAndHash (registry c.hubEndpoint k s) with
    | error e => simp
    | ok mh => simp

/-- Witness for C4: a registry reporting status "pending" makes construction
fail with the not-ready error and only the registry call in the trace. -/
theorem claim4_not_ready_before_download_witness :
    hubInit registryStub { hubEndpoint := "E2" } "mk" none ["home"] none
      = (.error .modelNotReady, [.registryCall "E2"]) :=
  (claim4_not_ready_before_download registryStub { hubEndpoint := "E2" } "mk"
    none ["home"] none).1 (by decide) (by decide)

/-- C5: when the download response carries no content-length header, the
downloader writes the full response body in one shot and returns
successfully (not an error), and the destination file's bytes equal the
response body byte for byte. -/
theorem claim5_unknown_length_download {sha : List Nat → String}
    {self : HubModel} {dest : FPath} {resp : DownloadResponse} {fs : FS}
    (hok : resp.httpOk = true) (hlen : resp.contentLength = none) :
    (saveAndVerifyModel sha self dest resp fs).1 = .ok () ∧
    ((saveAndVerifyModel sha self dest resp fs).2.1).readFile dest
      = some resp.content := by
  have key : saveAndVerifyModel sha self dest resp fs
      = (.ok (), (fs.writeFile dest []).writeFile dest resp.content,
         [NetEvent.downloadCall self.modelUrlAndHash.url]) := by
    unfold saveAndVerifyModel
    dsimp only
    rw [hok, hlen]
    simp
  rw [key]
  exact ⟨rfl, FS.readFile_writeFile_self _ _ _⟩

/-- Witness for C5 at a concrete three-byte body. -/
theorem claim5_unknown_length_download_witness :
    (saveAndVerifyModel shaStub sampleHub ["d", "f"]
        { httpOk := true, contentLength := none, content := [3, 4, 5] }
        emptyFS).1 = .ok () ∧
    ((saveAndVerifyModel shaStub sampleHub ["d", "f"]
        { httpOk := true, contentLength := none, content := [3, 4, 5] }
        emptyFS).2.1).readFile ["d", "f"] = some [3, 4, 5] :=
  @claim5_unknown_length_download shaStub sampleHub ["d", "f"]
    { httpOk := true, contentLength := none, content := [3, 4, 5] }
    emptyFS rfl rfl

/-- C6: after every successful `download_model` run the archive file
`model.zip` does not persist in the cache directory: the returned path is the
cache directory, the archive path is absent from the final state, and the
extracted entries are all present (the archive is only removed after
extraction succeeded — on extraction failure the rollback path of C2 applies
instead). -/
theorem claim6_archive_not_persisted {sha : List Nat → String}
    {unzip : List Nat → Option (List (FPath × List Nat))}
    {self : HubModel} {resp : DownloadResponse} {fs : FS} {p : FPath}
    {entries : List (FPath × List Nat)}
    (h : (downloadModel sha unzip self .tf resp fs).1 = .ok p)
    (hu : unzip resp.content = some entries)
    (hz : ¬ ["model.zip"] ∈ entries.map Prod.fst)
    (hdir : fs.dirs.any (fun d => d == self.modelDir ++ ["model.zip"]) = false) :
    p = self.modelDir ∧
    ((downloadModel sha unzip self .tf resp fs).2.1).existsPath
        (self.modelDir ++ ["model.zip"]) = false ∧
    ∀ e ∈ entries,
      ((downloadModel sha unzip self .tf resp fs).2.1).existsPath
        (self.modelDir ++ e.1) = true := by
  rcases hdm : downloadModel sha unzip self .tf resp fs with ⟨r, fs', ev⟩
  rw [hdm] at h
  dsimp only at h ⊢
  subst h
  obtain ⟨entries2, hu2, hp, hfs⟩ := downloadModel_tf_ok_char hdm
  rw [hu] at hu2
  obtain rfl := Option.some.inj hu2
  have hdirs : ((self.modelDir.inits ++ fs.dirs).any
      (fun d => d == self.modelDir ++ ["model.zip"])) = false := by
    rw [List.any_append]
    have h1 : (self.modelDir.inits.any
        (fun d => d == self.modelDir ++ ["model.zip"])) = false := by
      rw [List.any_eq_false]
      intro q hq
      simpa using mem_inits_ne_append_singleton self.modelDir "model.zip" q hq
    rw [h1, hdir]
    rfl
  refine ⟨hp, ?_, ?_⟩
  · rw [hfs]
    apply FS.existsPath_removeFile_self
    rw [extractAll_dirs]
    exact hdirs
  · intro e he
    rw [hfs]
    apply FS.existsPath_removeFile_of
    · exact extractAll_existsPath_mem entries _ self.modelDir he
    · intro hcontra
      have he1 : e.1 = ["model.zip"] := List.append_cancel_left hcontra
      exact hz (he1 ▸ List.mem_map_of_mem Prod.fst he)

/-- Witness for C6: after a concrete successful population no `model.zip`
remains, while the extracted `pipeline.config` entry is present. -/
theorem claim6_archive_not_persisted_witness :
    ((downloadModel shaStub unzipStub sampleHub .tf
        { httpOk := true, contentLength := some 2, content := [1, 2] }
        emptyFS).2.1).existsPath (sampleHub.modelDir ++ ["model.zip"]) = false ∧
    ((downloadModel shaStub unzipStub sampleHub .tf
        { httpOk := true, contentLength := some 2, content := [1, 2] }
        emptyFS).2.1).existsPath
      (sampleHub.modelDir ++ ["pipeline.config"]) = true := by
  obtain ⟨h1, h2, h3⟩ := @claim6_archive_not_persisted shaStub unzipStub
    sampleHub { httpOk := true, contentLength := some 2, content := [1, 2] }
    emptyFS sampleHub.modelDir
    [(["saved_model", "weights"], [9]), (["label_map.pbtxt"], [10]),
     (["pipeline.config"], [11])]
    rfl (by decide) (by decide) (by decide)
  exact ⟨h2, h3 (["pipeline.config"], [11]) (by decide)⟩

/-- C7: changing the process-wide endpoint configuration affects every
subsequent handle construction — the registry call of a construction under
the updated configuration goes to the new endpoint — but never the resolved
source cached on an already-constructed handle: such a handle's stored URL
and checksum are the ones the registry returned at construction under the
old endpoint, and every later download performed through the handle calls
exactly that stored URL. -/
theorem claim7_endpoint_change_frame (registry : Registry) (c : Config)
    (e k k2 : String) (s s2 : Option String) (home : FPath)
    (hd hd2 : Option FPath) :
    (hubInit registry (setHubEndpoint c e) k2 s2 home hd2).2
      = [.registryCall e] ∧
    ∀ h : HubModel, (hubInit registry c k s home hd).1 = .ok h →
      h.modelUrlAndHash
        = { url := (registry c.hubEndpoint k s).signedUrl,
            checksum := (registry c.hubEndpoint k s).hash } ∧
      ∀ (sha : List Nat → String)
        (unzip : List Nat → Option (List (FPath × List Nat)))
        (resp : DownloadResponse) (fs : FS),
        (downloadModel sha unzip h .tf resp fs).2.2
          = [.downloadCall h.modelUrlAndHash.url] := by
  constructor
  · unfold hubInit
    dsimp only
    cases getModelUrlAndHash (registry (setHubEndpoint c e).hubEndpoint k2 s2) with
    | error e2 => rfl
    | ok mh => rfl
  · intro h hok
    unfold hubInit at hok
    dsimp only at hok
    rcases hg : getModelUrlAndHash (registry c.hubEndpoint k s) with e2 | mh
    · rw [hg] at hok; simp at hok
    · rw [hg] at hok
      dsimp only at hok
      have hh := Except.ok.inj hok
      constructor
      · rw [← hh]
        exact getModelUrlAndHash_ok hg
      · intro sha unzip resp fs
        exact downloadModel_tf_events sha unzip h resp fs

/-- Witness for C7: after switching the endpoint from "E1" to "E2" a new
construction calls the registry at "E2", while the handle resolved under
"E1" still carries the URL and checksum from the "E1" response. -/
theorem claim7_endpoint_change_frame_witness :
    (hubInit registryStub (setHubEndpoint { hubEndpoint := "E1" } "E2") "mk"
        none ["home"] none).2 = [.registryCall "E2"] ∧
    sampleHub.modelUrlAndHash
      = { url := (registryStub "E1" "mk" none).signedUrl,
          checksum := (registryStub "E1" "mk" none).hash } := by
  obtain ⟨h1, h2⟩ := claim7_endpoint_change_frame registryStub
    { hubEndpoint := "E1" } "E2" "mk" "mk" none none ["home"] none none
  exact ⟨h1, (h2 sampleHub rfl).1⟩

/-- C8: `get_pipeline_config_dir` fails with the not-found error whose
message says the model-key directory does not exist when the cache directory
is absent; fails with the distinct message directing the caller to
re-download with `force_download=True` when the directory exists but
`pipeline.config` is missing; and otherwise returns the `pipeline.config`
path inside the cache directory.  The two messages differ. -/
theorem claim8_pipeline_config_dir (self : HubModel) (fs : FS) :
    (fs.existsPath self.modelDir = false →
      getPipelineConfigDir self fs
        = .error (.fileNotFound (missingDirMsg self.modelKey))) ∧
    (fs.existsPath self.modelDir = true →
      fs.existsPath (self.modelDir ++ ["pipeline.config"]) = false →
      getPipelineConfigDir self fs = .error (.fileNotFound missingConfigMsg)) ∧
    (fs.existsPath self.modelDir = true →
      fs.existsPath (self.modelDir ++ ["pipeline.config"]) = true →
      getPipelineConfigDir self fs
        = .ok (self.modelDir ++ ["pipeline.config"])) ∧
    missingDirMsg self.modelKey ≠ missingConfigMsg := by
  refine ⟨?_, ?_, ?_, ?_⟩
  · intro h1
    unfold getPipelineConfigDir
    dsimp only
    rw [h1]
    rfl
  · intro h1 h2
    unfold getPipelineConfigDir
    dsimp only
    rw [h1, h2]
    rfl
  · intro h1 h2
    unfold getPipelineConfigDir
    dsimp only
    rw [h1, h2]
    rfl
  · intro hcontra
    have hchar := congrArg (fun t => t.data.head?) hcontra
    simp [missingDirMsg, missingConfigMsg] at hchar

/-- Witness for C8: on the empty filesystem the never-downloaded message is
produced. -/
theorem claim8_pipeline_config_dir_witness :
    getPipelineConfigDir sampleHub emptyFS
      = .error (.fileNotFound (missingDirMsg "mk")) :=
  (claim8_pipeline_config_dir sampleHub emptyFS).1 (by decide)

/-- C9: for every label-map file made of records in which an id line
(containing "id" and a colon-separated integer) is immediately followed by a
name line (whose last colon-separated field, whitespace- and quote-stripped,
is the name), interleaved with filler lines not containing "id",
`_load_label_map_from_file` returns the mapping sending each record's id to
the dictionary `{id, name}` — covering exactly the records in the file (ids
assumed distinct, as dictionary keys). -/
theorem claim9_label_map_parse {lines : List String} {rs : List LabelEntry}
    (hwf : LabelFileWF lines rs) (hnd : (rs.map LabelEntry.id).Nodup) :
    loadLabelMapFromFile lines = some (rs.map (fun r => (r.id, r))) := by
  rw [loadLabelMapFromFile, loadLabelMapGo_wf hwf []]
  rw [foldl_dictInsert_fresh rs []
    (fun r _ e he => absurd he (List.not_mem_nil e)) hnd]
  simp

/-- Witness for C9 on a concrete two-record pbtxt-style fixture. -/
theorem claim9_label_map_parse_witness :
    loadLabelMapFromFile ["item \x7b", "  id: 1", "  name: 'cat'", "\x7d",
        "item \x7b", "  id: 2", "  name: 'dog'", "\x7d"]
      = some [(1, { id := 1, name := "cat" }),
              (2, { id := 2, name := "dog" })] :=
  claim9_label_map_parse
    (LabelFileWF.filler _ (by decide)
      (LabelFileWF.record _ _ { id := 1, name := "cat" }
        (by decide) (by decide) (by decide)
        (LabelFileWF.filler _ (by decide)
          (LabelFileWF.filler _ (by decide)
            (LabelFileWF.record _ _ { id := 2, name := "dog" }
              (by decide) (by decide) (by decide)
              (LabelFileWF.filler _ (by decide) LabelFileWF.nil))))))
    (by decide)

/-- C10: calling `download_model` with a model type other than
`ModelType.TF` on a handle whose cache directory already exists raises the
invalid-model-type `ValueError` AND removes the entire existing cache
subtree before the error propagates — a previously valid cache is destroyed
even though no network or extraction operation was attempted (the event
trace is empty). -/
theorem claim10_invalid_type_destroys_cache {sha : List Nat → String}
    {unzip : List Nat → Option (List (FPath × List Nat))}
    {self : HubModel} {resp : DownloadResponse} {fs : FS} (r : String)
    (hpop : fs.existsPath self.modelDir = true) :
    (downloadModel sha unzip self (.other r) resp fs).1
      = .error (.invalidModelType r) ∧
    (downloadModel sha unzip self (.other r) resp fs).2.2 = [] ∧
    ∀ p, self.modelDir <+: p →
      ((downloadModel sha unzip self (.other r) resp fs).2.1).existsPath p
        = false := by
  have h1 : (downloadModel sha unzip self (.other r) resp fs).1
      = .error (.invalidModelType r) := rfl
  exact ⟨h1, rfl, downloadModel_error_rollback h1⟩

/-- Witness for C10: a populated cache is wiped out by an invalid-type call. -/
theorem claim10_invalid_type_destroys_cache_witness :
    populatedFS.existsPath sampleHub.modelDir = true ∧
    (downloadModel shaStub unzipStub sampleHub (.other "ModelType.ONNX")
        { httpOk := true, contentLength := some 2, content := [1, 2] }
        populatedFS).1 = .error (.invalidModelType "ModelType.ONNX") ∧
    ((downloadModel shaStub unzipStub sampleHub (.other "ModelType.ONNX")
        { httpOk := true, contentLength := some 2, content := [1, 2] }
        populatedFS).2.1).existsPath sampleHub.modelDir = false := by
  obtain ⟨h1, _h2, h3⟩ := @claim10_invalid_type_destroys_cache shaStub
    unzipStub sampleHub
    { httpOk := true, contentLength := some 2, content := [1, 2] }
    populatedFS "ModelType.ONNX" (by decide)
  exact ⟨by decide, h1, h3 sampleHub.modelDir (List.prefix_refl _)⟩
